import Mathlib

/-!
Verification development for the gh-issue-jira-sync GitHub Action
(`scripts/sync.js`).  The JavaScript source is shallowly embedded as pure
Lean functions; stateful external calls (Jira create, GitHub label /
comment / state writes) are modelled as an explicit list of write effects
produced by the orchestrator.  Machine-level environment handling
(credential validation, logging, the GITHUB_OUTPUT reporting sink) is
outside the core under verification and is not modelled.
-/

namespace GhJiraSync

/-- A GitHub label, as consumed by the sync script (`l.name`). -/
structure Label where
  name : String
deriving DecidableEq, Repr

/-- A GitHub issue as read from the tracker: the fields `sync.js` consumes.
`is_pr` models presence of the `pull_request` field on entries returned by
the issue-listing endpoint.  The `body` field here is the string view of a
non-null body; `RawIssue` below carries the nullable `body` exactly as the
API delivers it (the tracker returns JSON `null` for bodiless issues). -/
structure Issue where
  number : Nat
  title : String
  body : String
  state : String
  labels : List Label
  html_url : String
  is_pr : Bool
deriving DecidableEq, Repr

/-- The configuration surface of the script that the core logic reads:
`DRY_RUN`, `CLOSE_AFTER_SYNC`, `JIRA_PROJECT_KEY`,
`JIRA_ISSUE_TYPE_DEFAULT` (already defaulted to "Task" by the env layer). -/
structure Config where
  dryRun : Bool
  closeAfterSync : Bool
  projectKey : String
  typeDefault : String
deriving DecidableEq, Repr

/- ── Character classes used by the regexes in sync.js ─────────────────── -/

/-- Character class `[A-Z]`. -/
def isUpperChar (c : Char) : Bool := 'A' ≤ c && c ≤ 'Z'

/-- Character class `\d` = `[0-9]`. -/
def isDigitChar (c : Char) : Bool := '0' ≤ c && c ≤ '9'

/-- Character class `[A-Z0-9]`. -/
def isUpperDigitChar (c : Char) : Bool := isUpperChar c || isDigitChar c

/-- JavaScript regex class `\s` (restricted to the ASCII whitespace
characters; the Unicode space members of `\s` do not occur in any input
considered here). -/
def jsWhitespace (c : Char) : Bool :=
  c = ' ' || c = '\t' || c = '\n' || c = '\r' || c = '\x0b' || c = '\x0c'

/-- JavaScript regex class `\w` = `[A-Za-z0-9_]`. -/
def isWordChar (c : Char) : Bool :=
  ('A' ≤ c && c ≤ 'Z') || ('a' ≤ c && c ≤ 'z') || isDigitChar c || c = '_'

/-- JavaScript `String.prototype.trim` on a character list. -/
def jsTrimList (cs : List Char) : List Char :=
  ((cs.dropWhile jsWhitespace).reverse.dropWhile jsWhitespace).reverse

/- ── Label Codec ──────────────────────────────────────────────────────── -/

/-- The part of the sync-label regex after `jira:` and its first `[A-Z]`
character: `[A-Z0-9]+-\d+$`.  The greedy `[A-Z0-9]+` needs no backtracking
because `-` is not in the class and `\d+` cannot contain `-`. -/
def keyTail (cs : List Char) : Bool :=
  let mid := cs.takeWhile isUpperDigitChar
  let rest := cs.dropWhile isUpperDigitChar
  (!mid.isEmpty) &&
    (match rest with
     | '-' :: ds => (!ds.isEmpty) && ds.all isDigitChar
     | _ => false)

/-- The Jira-key pattern `[A-Z][A-Z0-9]+-\d+` (anchored at both ends),
from the regex `/^jira:[A-Z][A-Z0-9]+-\d+$/` in `getJiraKeyFromLabels`. -/
def isSyncKeyChars : List Char → Bool
  | c :: rest => isUpperChar c && keyTail rest
  | [] => false

/-- Test of the full label name against `/^jira:[A-Z][A-Z0-9]+-\d+$/`. -/
def isSyncLabel (s : String) : Bool :=
  match s.data with
  | 'j' :: 'i' :: 'r' :: 'a' :: ':' :: rest => isSyncKeyChars rest
  | _ => false

/-- Embedding of `getJiraKeyFromLabels(labels)`: returns the Jira key if a
`jira:PROJ-123` label exists, otherwise null.  `labels.find(...)` scans in
list order; `.slice(5)` strips the 5-character `jira:` marker. -/
def getJiraKeyFromLabels (labels : List Label) : Option String :=
  match labels.find? (fun l => isSyncLabel l.name) with
  | some l => some (String.mk (l.name.data.drop 5))
  | none => none

/-- The label name written by `applyJiraLabel`:  `` `jira:${jiraKey}` ``. -/
def syncLabelName (jiraKey : String) : String := "jira:" ++ jiraKey

/-- The spec's description of the SyncLabel key shape, stated
declaratively (one uppercase letter, then one or more uppercase
letters/digits, a dash, and one or more digits) — used to compare the
code's regex against the spec's words. -/
def SpecSyncKeyShape (cs : List Char) : Prop :=
  ∃ u mid d, cs = u :: (mid ++ '-' :: d) ∧
    isUpperChar u = true ∧ mid ≠ [] ∧ (∀ c ∈ mid, isUpperDigitChar c = true) ∧
    d ≠ [] ∧ (∀ c ∈ d, isDigitChar c = true)

/- ── Field Mapper ─────────────────────────────────────────────────────── -/

/-- Table `PRIORITY_MAP` from sync.js. -/
def PRIORITY_MAP : List (String × String) :=
  [("priority:critical", "Highest"), ("priority:high", "High"),
   ("priority:medium", "Medium"), ("priority:low", "Low")]

/-- Table `TYPE_MAP` from sync.js. -/
def TYPE_MAP : List (String × String) :=
  [("security", "Bug"), ("bug", "Bug"), ("tech-debt", "Task"),
   ("enhancement", "Story"), ("feature", "Story")]

/-- Lookup `table[name]` for the mapping objects above, restricted to the
table's own entries (exact name match).  This is only the own-property
part of a JavaScript bracket lookup: an object literal also finds truthy
inherited `Object.prototype` members — `deriveIssueTypeJs` below models
that full semantics, and `derivePriority` shares the same pitfall. -/
def tableLookup (table : List (String × String)) (name : String) : Option String :=
  (table.find? (fun q => q.1 == name)).map (fun q => q.2)

/-- Embedding of `derivePriority(labels)`: first label with a `PRIORITY_MAP` entry wins,
fallback `'Medium'`. -/
def derivePriority : List Label → String
  | [] => "Medium"
  | l :: rest =>
    match tableLookup PRIORITY_MAP l.name with
    | some v => v
    | none => derivePriority rest

/-- Embedding of `deriveIssueType(labels)`: first label with a `TYPE_MAP` entry wins,
fallback `ENV.JIRA_ISSUE_TYPE_DEFAULT` (passed here as `dflt`). -/
def deriveIssueType (dflt : String) : List Label → String
  | [] => dflt
  | l :: rest =>
    match tableLookup TYPE_MAP l.name with
    | some v => v
    | none => deriveIssueType dflt rest

/- ── Body parsing (`parseBody`) ───────────────────────────────────────── -/

/-- Match a literal character sequence, returning the remainder. -/
def litMatch : List Char → List Char → Option (List Char)
  | [], cs => some cs
  | _ :: _, [] => none
  | l :: ls, c :: cs => if c = l then litMatch ls cs else none

/-- Character class `[^`|\n]` of the field-regex capture group. -/
def isCaptureChar (c : Char) : Bool := !(c = '`' || c = '|' || c = '\n')

/-- After the capture group: does `` `?\s*\| `` match a prefix here?
When the next character is a backtick the optional backtick must consume
it (the capture class excludes backticks, so the empty alternative can
never reach the `\|`). -/
def closeMatch : List Char → Bool
  | '`' :: rest =>
    match rest.dropWhile jsWhitespace with
    | '|' :: _ => true
    | _ => false
  | rest =>
    match rest.dropWhile jsWhitespace with
    | '|' :: _ => true
    | _ => false

/-- The non-greedy capture `([^`|\n]+?)`: try captures of increasing
length (shortest first, as the backtracking engine does) until the closing
`` `?\s*\| `` matches. -/
def capLoop (acc : List Char) : List Char → Option (List Char)
  | [] => none
  | c :: rest =>
    if isCaptureChar c then
      if closeMatch rest then some (acc ++ [c]) else capLoop (acc ++ [c]) rest
    else none

/-- Value-side match at a fixed start position: the optional opening
backtick (which must consume a backtick when one is present, since the
capture class excludes it) followed by the capture. -/
def valueAtStart : List Char → Option (List Char)
  | '`' :: rest => capLoop [] rest
  | cs => capLoop [] cs

/-- Backtracking over the greedy `\s*` before the value: the engine first
consumes the maximal whitespace run, then retries with ever shorter
runs (a space is in the capture class, so a shorter run can succeed). -/
def wsBacktrack (r : List Char) : Nat → Option (List Char)
  | 0 => valueAtStart r
  | a + 1 =>
    match valueAtStart (r.drop (a + 1)) with
    | some cap => some cap
    | none => wsBacktrack r a

/-- Match of `` \|\s*NAME\s*\|\s*`?([^`|\n]+?)`?\s*\| `` at one start
position, returning the capture.  The `\s*` runs before and after the
literal field name are deterministic because the name starts with a
letter and `\|` cannot match whitespace. -/
def fieldAt (name : List Char) (cs : List Char) : Option (List Char) :=
  match cs with
  | '|' :: r1 =>
    (match litMatch name (r1.dropWhile jsWhitespace) with
     | none => none
     | some r3 =>
       match r3.dropWhile jsWhitespace with
       | '|' :: r5 => wsBacktrack r5 (r5.takeWhile jsWhitespace).length
       | _ => none)
  | _ => none

/-- Leftmost-match search for the field regex (JS `String.match`). -/
def fieldSearch (name : List Char) : List Char → Option (List Char)
  | [] => none
  | c :: rest =>
    match fieldAt name (c :: rest) with
    | some cap => some cap
    | none => fieldSearch name rest

/-- The `field(name)` helper of `parseBody`: captured text, trimmed;
`null` when the regex does not match. -/
def fieldValue (name : String) (body : List Char) : Option String :=
  (fieldSearch name.data body).map (fun cs => String.mk (jsTrimList cs))

/-- JS `.` (dot): any character except a line terminator. -/
def isDotChar (c : Char) : Bool := !(c = '\n' || c = '\r')

/-- Capture `(.+)` after `>` in the TODO-comment regex, including the
backtracking of the greedy `\s*` that precedes it: the first (longest
`\s*`) start position at which `.` can match wins. -/
def todoCapture (r : List Char) : Option (List Char) :=
  let w := r.takeWhile jsWhitespace
  let rest := r.drop w.length
  match rest with
  | _ :: _ => some (rest.takeWhile isDotChar)
  | [] =>
    match w.reverse.dropWhile (fun c => !isDotChar c) with
    | c :: _ => some [c]
    | [] => none

/-- Match of `/##\s*TODO Comment\s*\n+>\s*(.+)/` at one start position.
The `\s*\n+` combination succeeds exactly when the whitespace run after
the heading ends with a newline immediately before the `>`. -/
def todoAt (cs : List Char) : Option (List Char) :=
  match litMatch ['#', '#'] cs with
  | none => none
  | some r1 =>
    match litMatch "TODO Comment".data (r1.dropWhile jsWhitespace) with
    | none => none
    | some r3 =>
      let w := r3.takeWhile jsWhitespace
      match w.getLast?, r3.drop w.length with
      | some '\n', '>' :: r5 => todoCapture r5
      | _, _ => none

/-- Leftmost-match search for the TODO-comment regex. -/
def todoSearch : List Char → Option (List Char)
  | [] => none
  | c :: rest =>
    match todoAt (c :: rest) with
    | some cap => some cap
    | none => todoSearch rest

/-- Non-greedy `[\s\S]*?` before the closing fence: the text up to the
earliest occurrence of three backticks. -/
def fenceClose : List Char → Option (List Char)
  | [] => none
  | '`' :: '`' :: '`' :: _ => some []
  | c :: rest => (fenceClose rest).map (fun t => c :: t)

/-- Match of ``/##\s*Code Context\s*\n+(```[\s\S]*?```)/`` at one start
position; the capture includes both fences. -/
def codeAt (cs : List Char) : Option (List Char) :=
  match litMatch ['#', '#'] cs with
  | none => none
  | some r1 =>
    match litMatch "Code Context".data (r1.dropWhile jsWhitespace) with
    | none => none
    | some r3 =>
      let w := r3.takeWhile jsWhitespace
      match w.getLast?, r3.drop w.length with
      | some '\n', '`' :: '`' :: '`' :: r5 =>
        (match fenceClose r5 with
         | some content => some (['`', '`', '`'] ++ content ++ ['`', '`', '`'])
         | none => none)
      | _, _ => none

/-- Leftmost-match search for the code-context regex. -/
def codeSearch : List Char → Option (List Char)
  | [] => none
  | c :: rest =>
    match codeAt (c :: rest) with
    | some cap => some cap
    | none => codeSearch rest

/-- The structured fields `parseBody` extracts from a GitHub issue body. -/
structure Meta where
  todoText : Option String
  codeBlock : Option String
  file : Option String
  line : Option String
  branch : Option String
  commit : Option String
  introduced : Option String
  author : Option String
deriving DecidableEq, Repr

/-- Embedding of `parseBody(body)` from sync.js. -/
def parseBody (body : String) : Meta :=
  let bs := body.data
  { todoText := (todoSearch bs).map (fun cs => String.mk (jsTrimList cs))
    codeBlock := (codeSearch bs).map String.mk
    file := fieldValue "File" bs
    line := fieldValue "Line" bs
    branch := fieldValue "Branch" bs
    commit := fieldValue "Commit" bs
    introduced := fieldValue "Introduced" bs
    author := fieldValue "Author" bs }

/- ── Jira ADF description builder ─────────────────────────────────────── -/

/-- Atlassian Document Format nodes, as built by sync.js (the constant
`attrs` objects carry no information and are omitted; marks are kept as
their type names). -/
inductive Adf where
  | text (text : String) (marks : List String)
  | paragraph (content : List Adf)
  | blockquote (content : List Adf)
  | heading (level : Nat) (content : List Adf)
  | table (content : List Adf)
  | tableRow (content : List Adf)
  | tableHeader (content : List Adf)
  | tableCell (content : List Adf)
  | codeBlock (language : String) (content : List Adf)
  | doc (content : List Adf)
deriving Repr

/-- Embedding of `adfTableRow(cells, header)` from sync.js. -/
def adfTableRow (cells : List String) (header : Bool) : Adf :=
  Adf.tableRow (cells.map (fun t =>
    (if header then Adf.tableHeader else Adf.tableCell)
      [Adf.paragraph [Adf.text t []]]))

/-- JavaScript truthiness of a nullable string (`null` and the empty
string are falsy). -/
def jsTruthy : Option String → Bool
  | some s => !s.data.isEmpty
  | none => false

/-- JavaScript `a || b` for a nullable string with a string fallback. -/
def jsOr (o : Option String) (dflt : String) : String :=
  match o with
  | some s => if s.data.isEmpty then dflt else s
  | none => dflt

/-- One optional entry of the `metaRows` array literal: a falsy field
contributes nothing once `.filter(Boolean)` runs. -/
def rowOpt (k : String) : Option String → List (String × String)
  | some s => if s.data.isEmpty then [] else [(k, s)]
  | none => []

/-- The field rows of `metaRows` (everything before the GitHub-link row),
in the fixed source order. -/
def metaFieldRows (meta : Meta) : List (String × String) :=
  rowOpt "File" meta.file ++ rowOpt "Line" meta.line ++
  rowOpt "Branch" meta.branch ++ rowOpt "Commit" meta.commit ++
  rowOpt "Introduced" meta.introduced ++ rowOpt "Author" meta.author

/-- The `metaRows` array of `buildDescription` after `.filter(Boolean)`:
the truthy field rows plus, always last, the GitHub-issue link row. -/
def metaRows (issue : Issue) (meta : Meta) : List (String × String) :=
  metaFieldRows meta ++ [("GitHub Issue", issue.html_url)]

/-- Language detection ``(codeBlock.match(/```(\w+)/) || [])[1] || 'text'``:
leftmost occurrence of three backticks followed by at least one word
character; the greedy `\w+` capture. -/
def findLangAt : List Char → Option (List Char)
  | '`' :: '`' :: '`' :: d :: rest =>
    if isWordChar d then some (d :: rest.takeWhile isWordChar) else none
  | _ => none

/-- Leftmost-match search for the language fence. -/
def findLang : List Char → Option (List Char)
  | [] => none
  | c :: rest =>
    match findLangAt (c :: rest) with
    | some l => some l
    | none => findLang rest

/-- The detected code-fence language, defaulting to `'text'`. -/
def langOf (cb : String) : String :=
  match findLang cb.data with
  | some l => String.mk l
  | none => "text"

/-- Embedding of ``.replace(/^```\w*\n?/, '')``: strip a leading fence, its language
word and one optional newline. -/
def stripOpenFence : List Char → List Char
  | '`' :: '`' :: '`' :: rest =>
    (match rest.dropWhile isWordChar with
     | '\n' :: t => t
     | r => r)
  | cs => cs

/-- Embedding of ``.replace(/\n?```$/, '')``: strip a trailing fence; the leftmost of
the two possible end-anchored matches takes the preceding newline too. -/
def stripCloseFence (cs : List Char) : List Char :=
  match cs.reverse with
  | '`' :: '`' :: '`' :: '\n' :: t => t.reverse
  | '`' :: '`' :: '`' :: t => t.reverse
  | _ => cs

/-- The de-fenced code text of the Code Context section. -/
def deFence (cb : String) : String :=
  String.mk (stripCloseFence (stripOpenFence cb.data))

/-- The provenance paragraph (static text identifying the automation). -/
def provenancePara : Adf :=
  Adf.paragraph
    [Adf.text "Auto-migrated from GitHub Issues by " ["em"],
     Adf.text "gh-issue-jira-sync" ["em", "strong"],
     Adf.text "." ["em"]]

/-- The Code Context section appended when `meta.codeBlock` is truthy. -/
def codeContextPart (meta : Meta) : List Adf :=
  match meta.codeBlock with
  | some cb =>
    if cb.data.isEmpty then []
    else
      [Adf.heading 3 [Adf.text "Code Context" []],
       Adf.codeBlock (langOf cb) [Adf.text (deFence cb) []]]
  | none => []

/-- Embedding of `buildDescription(issue, meta)` from sync.js. -/
def buildDescription (issue : Issue) (meta : Meta) : Adf :=
  Adf.doc
    ([provenancePara,
      Adf.blockquote [Adf.paragraph [Adf.text (jsOr meta.todoText issue.title) []]],
      Adf.heading 3 [Adf.text "Details" []],
      Adf.table
        (adfTableRow ["Field", "Value"] true ::
          (metaRows issue meta).map (fun r => adfTableRow [r.1, r.2] false))]
     ++ codeContextPart meta)

/- ── Jira payload (`createJiraIssue`) ─────────────────────────────────── -/

/-- The summary derivation of `createJiraIssue`:
`title.replace(/^\[[^\]]*\]\s*/g, '').trim().substring(0, 255)`.
With a start anchor the global flag is inert: `^` only holds at index 0,
so exactly one leading `[...]` group (plus trailing whitespace) is
removed. -/
def stripLeadBracket : List Char → List Char
  | '[' :: rest =>
    (match rest.dropWhile (fun c => c ≠ ']') with
     | ']' :: tail => tail.dropWhile jsWhitespace
     | _ => '[' :: rest)
  | cs => cs

/-- The `summary` field as computed by `createJiraIssue`. -/
def deriveSummary (title : String) : String :=
  String.mk ((jsTrimList (stripLeadBracket title.data)).take 255)

/-- The `payload.fields` object submitted to `POST /rest/api/3/issue`. -/
structure JiraPayload where
  projectKey : String
  summary : String
  description : Adf
  issuetype : String
  priority : String
  labels : List String
deriving Repr

/-- The payload `createJiraIssue` builds for an issue (built before the
dry-run check, in source order). -/
def mkPayload (cfg : Config) (issue : Issue) : JiraPayload :=
  { projectKey := cfg.projectKey
    summary := deriveSummary issue.title
    description := buildDescription issue (parseBody issue.body)
    issuetype := deriveIssueType cfg.typeDefault issue.labels
    priority := derivePriority issue.labels
    labels := ["auto-migrated", "gh-issue-jira-sync"] }

/- ── Write effects and the Sync Orchestrator ──────────────────────────── -/

/-- One external write call, in the order the orchestrator issues it.
Reads (`issues.get`, `issues.getLabel`, `issues.listForRepo`) and the
non-tracker `GITHUB_OUTPUT` reporting line are not write effects. -/
inductive WriteEff where
  | jiraCreate (payload : JiraPayload)
  | ensureLabelCall (name : String) (color : String) (description : String)
  | addLabels (issueNumber : Nat) (labels : List String)
  | createComment (issueNumber : Nat)
  | updateIssue (issueNumber : Nat) (state : String) (stateReason : String)
deriving Repr

/-- The result object `syncIssue` returns. -/
inductive Outcome where
  | skipped (reason : String) (jiraKey : Option String)
  | synced (jiraKey : String)
deriving DecidableEq, Repr

/-- Embedding of `createJiraIssue(issue)`: in dry-run mode no write is issued and the
synthetic placeholder key is returned; otherwise the single create call is
issued and the remote key (`jiraRespKey`, the key of the ticket the Jira
collaborator reports as created) is returned. -/
def createJiraIssue (cfg : Config) (issue : Issue) (jiraRespKey : String) :
    String × List WriteEff :=
  if cfg.dryRun then (cfg.projectKey ++ "-DRY", [])
  else (jiraRespKey, [WriteEff.jiraCreate (mkPayload cfg issue)])

/-- Embedding of `applyJiraLabel(issueNumber, jiraKey)`: ensure the label exists in the
repository, then attach it — both skipped in dry-run mode. -/
def applyJiraLabel (cfg : Config) (issueNumber : Nat) (jiraKey : String) :
    List WriteEff :=
  if cfg.dryRun then []
  else
    [WriteEff.ensureLabelCall (syncLabelName jiraKey) "0075ca"
       ("Synced to Jira as " ++ jiraKey),
     WriteEff.addLabels issueNumber [syncLabelName jiraKey]]

/-- Embedding of `closeIssue(issueNumber, jiraKey)`: post the link comment, then close
the issue as not-planned — both skipped in dry-run mode.  The comment body
(which embeds a wall-clock timestamp) is not modelled. -/
def closeIssue (cfg : Config) (issueNumber : Nat) : List WriteEff :=
  if cfg.dryRun then []
  else
    [WriteEff.createComment issueNumber,
     WriteEff.updateIssue issueNumber "closed" "not_planned"]

/-- Embedding of `syncIssue(issueNumber)` after the issue has been fetched: the
guard on an existing sync label, the closed-issue guard, then the write
sequence create → label → (optionally) close.  The returned list is the
sequence of external write calls, in order. -/
def syncIssue (cfg : Config) (issue : Issue) (jiraRespKey : String) :
    Outcome × List WriteEff :=
  match getJiraKeyFromLabels issue.labels with
  | some k => (Outcome.skipped "already_synced" (some k), [])
  | none =>
    if issue.state = "closed" then (Outcome.skipped "already_closed" none, [])
    else
      let c := createJiraIssue cfg issue jiraRespKey
      (Outcome.synced c.1,
        c.2 ++ applyJiraLabel cfg issue.number c.1 ++
          (if cfg.closeAfterSync then closeIssue cfg issue.number else []))

/- ── Bulk Driver ──────────────────────────────────────────────────────── -/

/-- The per-run counters `{ synced, skipped, failed }` of `bulkSync`. -/
structure Summary where
  synced : Nat
  skipped : Nat
  failed : Nat
deriving DecidableEq, Repr

/-- Componentwise sum of counters. -/
def addSummary (a b : Summary) : Summary :=
  ⟨a.synced + b.synced, a.skipped + b.skipped, a.failed + b.failed⟩

/-- The inner per-page loop of `bulkSync`.  `run` abstracts the awaited
`syncIssue(issue.number)` call under a fallible environment: a thrown
per-issue error is `Except.error`.  Pull requests are passed over; a
successful result bumps `synced` or `skipped`; a caught error bumps
`failed` and the loop continues with the next issue. -/
def processIssues (run : Issue → Except String Outcome) :
    List Issue → Summary → Summary
  | [], acc => acc
  | i :: rest, acc =>
    if i.is_pr then processIssues run rest acc
    else
      match run i with
      | Except.ok (Outcome.synced _) =>
        processIssues run rest ⟨acc.synced + 1, acc.skipped, acc.failed⟩
      | Except.ok (Outcome.skipped _ _) =>
        processIssues run rest ⟨acc.synced, acc.skipped + 1, acc.failed⟩
      | Except.error _ =>
        processIssues run rest ⟨acc.synced, acc.skipped, acc.failed + 1⟩

/-- The counter contribution of a single listing entry: zero for a pull
request, one in the matching counter otherwise. -/
def issueDelta (run : Issue → Except String Outcome) (i : Issue) : Summary :=
  if i.is_pr then ⟨0, 0, 0⟩
  else
    match run i with
    | Except.ok (Outcome.synced _) => ⟨1, 0, 0⟩
    | Except.ok (Outcome.skipped _ _) => ⟨0, 1, 0⟩
    | Except.error _ => ⟨0, 0, 1⟩

/-- Sum of the per-entry contributions over a batch. -/
def sumDeltas (run : Issue → Except String Outcome) (issues : List Issue) :
    Summary :=
  issues.foldr (fun i s => addSummary (issueDelta run i) s) ⟨0, 0, 0⟩

/-- The paged outer loop of `bulkSync`: fetch page 1, 2, … until an empty
page or a short (< 100 entries) page; each page runs through the inner
loop.  `fuel` bounds the page count (the remote listing is finite). -/
def bulkSyncLoop (fetch : Nat → List Issue) (run : Issue → Except String Outcome) :
    Nat → Nat → Summary → Summary
  | _, 0, acc => acc
  | page, fuel + 1, acc =>
    let issues := fetch page
    if issues.isEmpty then acc
    else
      let acc2 := processIssues run issues acc
      if issues.length < 100 then acc2
      else bulkSyncLoop fetch run (page + 1) fuel acc2

/- ── The nullable issue body, as the API delivers it ──────────────────── -/

/-- A GitHub issue exactly as the API returns it: the `body` field is
nullable — `none` models JSON `null`, which the tracker returns for
issues created without a body; `some s` a string body. -/
structure RawIssue where
  number : Nat
  title : String
  body : Option String
  state : String
  labels : List Label
  html_url : String
  is_pr : Bool
deriving DecidableEq, Repr

/-- View of a raw issue with the given string body as the string-bodied
issue the rest of the pipeline consumes. -/
def withBody (i : RawIssue) (s : String) : Issue :=
  ⟨i.number, i.title, s, i.state, i.labels, i.html_url, i.is_pr⟩

/-- The call `parseBody(issue.body)` as JavaScript executes it: the
`body = ''` default parameter applies only to `undefined`, so a `null`
body reaches `body.match(...)` inside `parseBody` and throws a
TypeError. -/
def parseBodyCall : Option String → Except String Meta
  | none => Except.error "TypeError"
  | some s => Except.ok (parseBody s)

/-- Embedding of `syncIssue` over the raw (nullable-body) issue.  Both
guards run first and return without touching the body; `createJiraIssue`
then evaluates `parseBody(issue.body)` *before* its `DRY_RUN` check, so a
null body aborts the run with the thrown TypeError (`parseBodyCall`) and
no key — also in dry-run mode.  With a string body the run proceeds
exactly as `syncIssue` on the string-bodied view. -/
def syncIssueRaw (cfg : Config) (issue : RawIssue) (jiraRespKey : String) :
    Except String (Outcome × List WriteEff) :=
  match getJiraKeyFromLabels issue.labels with
  | some k => Except.ok (Outcome.skipped "already_synced" (some k), [])
  | none =>
    if issue.state = "closed" then
      Except.ok (Outcome.skipped "already_closed" none, [])
    else
      match issue.body with
      | none => Except.error "TypeError"
      | some s => Except.ok (syncIssue cfg (withBody issue s) jiraRespKey)

/- ── JavaScript object-literal lookup with the prototype chain ────────── -/

/-- Property names every JavaScript object literal inherits from
`Object.prototype`.  A bracket lookup `TYPE_MAP[name]` finds these even
though the table has no such own entry, and each of them is truthy — a
built-in function, or the prototype object itself for `__proto__`. -/
def objectProtoProps : List String :=
  ["constructor", "hasOwnProperty", "isPrototypeOf", "propertyIsEnumerable",
   "toLocaleString", "toString", "valueOf", "__defineGetter__",
   "__defineSetter__", "__lookupGetter__", "__lookupSetter__", "__proto__"]

/-- Result of the type derivation under real JavaScript lookup semantics:
either a string (a table value or the configured default), or an
inherited non-string `Object.prototype` member leaked by the truthiness
test. -/
inductive JsValue where
  | str (s : String)
  | protoMember (name : String)
deriving DecidableEq, Repr

/-- Embedding of `deriveIssueType(labels)` with faithful object-literal
bracket lookup: an own `TYPE_MAP` entry is returned as a string; a label
name that collides with a truthy inherited `Object.prototype` member
makes `if (TYPE_MAP[l.name])` succeed too, and `return TYPE_MAP[l.name]`
then yields that inherited member; only otherwise does the scan continue
and finally fall back to the configured default. -/
def deriveIssueTypeJs (dflt : String) : List Label → JsValue
  | [] => JsValue.str dflt
  | l :: rest =>
    match tableLookup TYPE_MAP l.name with
    | some v => JsValue.str v
    | none =>
      if objectProtoProps.contains l.name then JsValue.protoMember l.name
      else deriveIssueTypeJs dflt rest

/- ── Helper lemmas ────────────────────────────────────────────────────── -/

theorem takeWhile_all_append (p : Char → Bool) (l1 l2 : List Char) (c : Char)
    (h1 : ∀ x ∈ l1, p x = true) (hc : p c = false) :
    (l1 ++ c :: l2).takeWhile p = l1 := by
  induction l1 with
  | nil => simp [List.takeWhile_cons, hc]
  | cons a as ih =>
    have ha : p a = true := h1 a (by simp)
    simp only [List.cons_append, List.takeWhile_cons, ha, if_true]
    rw [ih (fun x hx => h1 x (by simp [hx]))]

theorem dropWhile_all_append (p : Char → Bool) (l1 l2 : List Char) (c : Char)
    (h1 : ∀ x ∈ l1, p x = true) (hc : p c = false) :
    (l1 ++ c :: l2).dropWhile p = c :: l2 := by
  induction l1 with
  | nil => simp [List.dropWhile_cons, hc]
  | cons a as ih =>
    have ha : p a = true := h1 a (by simp)
    simp only [List.cons_append, List.dropWhile_cons, ha, if_true]
    exact ih (fun x hx => h1 x (by simp [hx]))

theorem find?_append_none {α : Type} (p : α → Bool) (l1 l2 : List α)
    (h : ∀ x ∈ l1, p x = false) : (l1 ++ l2).find? p = l2.find? p := by
  induction l1 with
  | nil => rfl
  | cons a as ih =>
    have ha : p a = false := h a (by simp)
    rw [List.cons_append, List.find?_cons_of_neg (as ++ l2) (by simp [ha])]
    exact ih (fun x hx => h x (by simp [hx]))

theorem keyTail_decomp (cs : List Char) (h : keyTail cs = true) :
    ∃ mid d, cs = mid ++ '-' :: d ∧ mid ≠ [] ∧
      (∀ c ∈ mid, isUpperDigitChar c = true) ∧ d ≠ [] ∧
      (∀ c ∈ d, isDigitChar c = true) := by
  simp only [keyTail, Bool.and_eq_true] at h
  obtain ⟨h1, h2⟩ := h
  split at h2
  case _ ds heq =>
    refine ⟨cs.takeWhile isUpperDigitChar, ds, ?_, ?_, ?_, ?_, ?_⟩
    · conv_lhs => rw [← List.takeWhile_append_dropWhile isUpperDigitChar cs]
      rw [heq]
    · intro hnil
      rw [hnil] at h1
      simp at h1
    · exact fun c hc => List.mem_takeWhile_imp hc
    · intro hnil
      rw [hnil] at h2
      simp at h2
    · intro c hc
      simp only [Bool.and_eq_true, List.all_eq_true] at h2
      exact h2.2 c hc
  case _ => simp at h2

theorem keyTail_build (mid d : List Char)
    (hm : ∀ c ∈ mid, isUpperDigitChar c = true) (hmne : mid ≠ [])
    (hd : ∀ c ∈ d, isDigitChar c = true) (hdne : d ≠ []) :
    keyTail (mid ++ '-' :: d) = true := by
  simp only [keyTail]
  rw [takeWhile_all_append _ _ _ _ hm (by decide),
      dropWhile_all_append _ _ _ _ hm (by decide)]
  simp [hmne, hdne, List.all_eq_true.mpr hd]

theorem isSyncKeyChars_iff (cs : List Char) :
    isSyncKeyChars cs = true ↔ SpecSyncKeyShape cs := by
  constructor
  · intro h
    cases cs with
    | nil => simp [isSyncKeyChars] at h
    | cons u rest =>
      simp only [isSyncKeyChars, Bool.and_eq_true] at h
      obtain ⟨hu, ht⟩ := h
      obtain ⟨mid, d, hdec, hm, hmall, hd, hdall⟩ := keyTail_decomp rest ht
      exact ⟨u, mid, d, by rw [hdec], hu, hm, hmall, hd, hdall⟩
  · rintro ⟨u, mid, d, rfl, hu, hm, hmall, hd, hdall⟩
    simp only [isSyncKeyChars, Bool.and_eq_true]
    exact ⟨hu, keyTail_build mid d hmall hm hdall hd⟩

theorem data_syncLabelName (k : String) :
    (syncLabelName k).data = 'j' :: 'i' :: 'r' :: 'a' :: ':' :: k.data := by
  rw [syncLabelName, String.data_append]
  rfl

theorem isSyncLabel_syncLabelName (k : String) :
    isSyncLabel (syncLabelName k) = isSyncKeyChars k.data := by
  rw [isSyncLabel, data_syncLabelName k]
  rfl

theorem drop5_syncLabelName (k : String) :
    String.mk ((syncLabelName k).data.drop 5) = k := by
  rw [data_syncLabelName k]
  rfl

theorem getJiraKey_none_of (L : List Label)
    (h : ∀ l ∈ L, isSyncLabel l.name = false) :
    getJiraKeyFromLabels L = none := by
  rw [getJiraKeyFromLabels,
      List.find?_eq_none.mpr (fun l hl => by simp [h l hl])]

theorem not_syncLabel_of_getJiraKey_none (L : List Label)
    (h : getJiraKeyFromLabels L = none) :
    ∀ l ∈ L, isSyncLabel l.name = false := by
  intro l hl
  rw [getJiraKeyFromLabels] at h
  rcases hf : L.find? (fun l => isSyncLabel l.name) with _ | x
  · have := List.find?_eq_none.mp hf l hl
    simpa using this
  · rw [hf] at h
    simp at h

theorem getJiraKey_first (pre post : List Label) (l : Label)
    (hpre : ∀ p ∈ pre, isSyncLabel p.name = false)
    (hl : isSyncLabel l.name = true) :
    getJiraKeyFromLabels (pre ++ l :: post)
      = some (String.mk (l.name.data.drop 5)) := by
  rw [getJiraKeyFromLabels,
      find?_append_none _ _ _ (fun p hp => by simp [hpre p hp])]
  simp only [List.find?_cons, hl]

theorem syncKey_ne_dry (p k : String) (h : isSyncKeyChars k.data = true) :
    p ++ "-DRY" ≠ k := by
  intro he
  obtain ⟨u, mid, d, hk, _, _, _, hd, hdall⟩ := (isSyncKeyChars_iff k.data).mp h
  cases hdr : d.reverse with
  | nil => exact hd (by simpa using congrArg List.reverse hdr)
  | cons c t =>
    have hcd : c ∈ d := by
      rw [← List.mem_reverse, hdr]
      simp
    have hdig : isDigitChar c = true := hdall c hcd
    have h1 : k.data.reverse.head? = some 'Y' := by
      rw [← he, String.data_append]
      simp
    have h2 : k.data.reverse.head? = some c := by
      rw [hk]
      simp [List.reverse_append, hdr]
    rw [h1] at h2
    have : 'Y' = c := by simpa using h2
    rw [← this] at hdig
    exact absurd hdig (by decide)

theorem dryKey_not_syncKey (p : String) :
    isSyncKeyChars (p ++ "-DRY").data = false := by
  cases h : isSyncKeyChars (p ++ "-DRY").data
  · rfl
  · exact absurd rfl (syncKey_ne_dry p (p ++ "-DRY") h)

theorem rowOpt_eq_nil (k : String) (v : Option String) (h : jsTruthy v = false) :
    rowOpt k v = [] := by
  cases v with
  | none => rfl
  | some s =>
    simp only [jsTruthy] at h
    have hs : s.data.isEmpty = true := by
      cases hb : s.data.isEmpty
      · rw [hb] at h
        simp at h
      · rfl
    simp [rowOpt, hs]

theorem sumDeltas_cons (run : Issue → Except String Outcome) (i : Issue)
    (rest : List Issue) :
    sumDeltas run (i :: rest) = addSummary (issueDelta run i) (sumDeltas run rest) :=
  rfl

theorem addSummary_zero_left (s : Summary) : addSummary ⟨0, 0, 0⟩ s = s := by
  cases s
  simp [addSummary]

theorem processIssues_eq_sum (run : Issue → Except String Outcome)
    (issues : List Issue) :
    ∀ acc, processIssues run issues acc = addSummary acc (sumDeltas run issues) := by
  induction issues with
  | nil => intro acc; rfl
  | cons i rest ih =>
    intro acc
    rw [sumDeltas_cons]
    cases hp : i.is_pr with
    | false =>
      have hdelta : issueDelta run i =
          (match run i with
           | Except.ok (Outcome.synced _) => (⟨1, 0, 0⟩ : Summary)
           | Except.ok (Outcome.skipped _ _) => ⟨0, 1, 0⟩
           | Except.error _ => ⟨0, 0, 1⟩) := by
        simp [issueDelta, hp]
      rcases hr : run i with e | o
      · simp only [processIssues, hp, Bool.false_eq_true, if_false, hr]
        rw [ih, hdelta, hr]
        simp [addSummary, Summary.mk.injEq]
        omega
      · cases o with
        | skipped r j =>
          simp only [processIssues, hp, Bool.false_eq_true, if_false, hr]
          rw [ih, hdelta, hr]
          simp [addSummary, Summary.mk.injEq]
          omega
        | synced jk =>
          simp only [processIssues, hp, Bool.false_eq_true, if_false, hr]
          rw [ih, hdelta, hr]
          simp [addSummary, Summary.mk.injEq]
          omega
    | true =>
      have hdelta : issueDelta run i = ⟨0, 0, 0⟩ := by simp [issueDelta, hp]
      simp only [processIssues, hp, if_true]
      rw [ih acc, hdelta, addSummary_zero_left]

/- ── Concrete fixtures used by the witnesses ──────────────────────────── -/

/-- A live (non-dry-run) configuration with the default close-after-sync
policy. -/
def cfgLive : Config := ⟨false, true, "OLSF", "Task"⟩

/-- A dry-run configuration. -/
def cfgDry : Config := ⟨true, true, "OLSF", "Task"⟩

/-- An open issue with no sync label. -/
def issuePlain : Issue :=
  ⟨7, "Fix it", "", "open", [⟨"bug"⟩], "https://github.com/o/r/issues/7", false⟩

/-- An open issue that already carries the sync label `jira:OLSF-42`. -/
def issueSyncedL : Issue :=
  ⟨8, "T", "", "open", [⟨"docs"⟩, ⟨"jira:OLSF-42"⟩], "https://github.com/o/r/issues/8", false⟩

/-- An open, unlabeled raw issue whose body is null, as GitHub returns
for issues created without a body. -/
def rawNullBody : RawIssue :=
  ⟨7, "Fix it", none, "open", [⟨"bug"⟩], "https://github.com/o/r/issues/7", false⟩

/-- The same raw issue with an (empty) string body. -/
def rawBodied : RawIssue :=
  ⟨7, "Fix it", some "", "open", [⟨"bug"⟩], "https://github.com/o/r/issues/7", false⟩

/- ── Claim theorems ───────────────────────────────────────────────────── -/

/-- Claim C1: an issue whose label set already contains a sync label makes
the Orchestrator return `skipped(already_synced)` with that label's key
and an empty write-effect list; and re-running the Orchestrator on an
issue whose first (non-dry) run returned `synced` and whose sync label was
attached (the LABELED transition completed) yields
`skipped(already_synced)` with the first run's key and no writes. -/
theorem c1_idempotency_guard :
    (∀ (cfg : Config) (issue : Issue) (resp k : String),
       getJiraKeyFromLabels issue.labels = some k →
       syncIssue cfg issue resp = (Outcome.skipped "already_synced" (some k), []))
    ∧
    (∀ (cfg : Config) (issue : Issue) (resp resp2 : String) (effs : List WriteEff),
       cfg.dryRun = false →
       isSyncKeyChars resp.data = true →
       syncIssue cfg issue resp = (Outcome.synced resp, effs) →
       syncIssue cfg { issue with labels := issue.labels ++ [⟨syncLabelName resp⟩] }
           resp2
         = (Outcome.skipped "already_synced" (some resp), [])) := by
  constructor
  · intro cfg issue resp k h
    rw [syncIssue, h]
  · intro cfg issue resp resp2 effs hdry hkey hrun
    have hg : getJiraKeyFromLabels issue.labels = none := by
      rcases hgk : getJiraKeyFromLabels issue.labels with _ | k
      · rfl
      · rw [syncIssue, hgk] at hrun
        exact absurd (congrArg Prod.fst hrun) (by simp)
    have hfirst := getJiraKey_first issue.labels [] ⟨syncLabelName resp⟩
      (not_syncLabel_of_getJiraKey_none issue.labels hg)
      (by rw [isSyncLabel_syncLabelName]; exact hkey)
    rw [drop5_syncLabelName] at hfirst
    rw [syncIssue]
    simp only []
    rw [hfirst]

/-- Witness for C1: concrete runs of both conjuncts — a labelled issue is
skipped with its key, and the issue obtained by completing a first full
run is skipped on the second run. -/
theorem c1_idempotency_guard_witness :
    syncIssue cfgLive issueSyncedL "ZZ-1"
      = (Outcome.skipped "already_synced" (some "OLSF-42"), [])
    ∧ syncIssue cfgLive
        { issuePlain with labels := issuePlain.labels ++ [⟨syncLabelName "OLSF-9"⟩] }
        "ZZ-2"
      = (Outcome.skipped "already_synced" (some "OLSF-9"), []) :=
  ⟨c1_idempotency_guard.1 cfgLive issueSyncedL "ZZ-1" "OLSF-42" (by decide),
   c1_idempotency_guard.2 cfgLive issuePlain "OLSF-9" "ZZ-2"
     (syncIssue cfgLive issuePlain "OLSF-9").2 rfl (by decide) rfl⟩

/-- Claim C2: the label-codec pattern is exactly "jira: followed by one
uppercase letter, one or more uppercase letters/digits, a dash, one or
more digits"; `getJiraKeyFromLabels` returns the key of the first matching
label in set order, and returns absent when no label matches.  (It is a
total function by construction — no failure modes.) -/
theorem c2_extract_sync_key :
    (∀ cs : List Char, isSyncKeyChars cs = true ↔ SpecSyncKeyShape cs)
    ∧
    (∀ (pre post : List Label) (l : Label) (k : String),
       (∀ p ∈ pre, isSyncLabel p.name = false) →
       l.name = syncLabelName k →
       isSyncKeyChars k.data = true →
       getJiraKeyFromLabels (pre ++ l :: post) = some k)
    ∧
    (∀ labels : List Label,
       (∀ l ∈ labels, isSyncLabel l.name = false) →
       getJiraKeyFromLabels labels = none) := by
  refine ⟨isSyncKeyChars_iff, ?_, getJiraKey_none_of⟩
  intro pre post l k hpre hname hkey
  have := getJiraKey_first pre post l hpre
    (by rw [hname, isSyncLabel_syncLabelName]; exact hkey)
  rw [this, hname, drop5_syncLabelName]

/-- Witness for C2: the pattern characterization, the first-match
extraction, and the absent case at concrete label sets. -/
theorem c2_extract_sync_key_witness :
    isSyncKeyChars "OLSF-42".data = true
    ∧ getJiraKeyFromLabels [⟨"docs"⟩, ⟨"jira:OLSF-42"⟩, ⟨"jira:AA-1"⟩]
        = some "OLSF-42"
    ∧ getJiraKeyFromLabels [⟨"docs"⟩, ⟨"bug"⟩] = none :=
  ⟨(c2_extract_sync_key.1 "OLSF-42".data).mpr
     ⟨'O', ['L', 'S', 'F'], ['4', '2'], by decide, by decide, by decide,
      by decide, by decide, by decide⟩,
   c2_extract_sync_key.2.1 [⟨"docs"⟩] [⟨"jira:AA-1"⟩] ⟨"jira:OLSF-42"⟩ "OLSF-42"
     (by decide) (by decide) (by decide),
   c2_extract_sync_key.2.2 [⟨"docs"⟩, ⟨"bug"⟩] (by decide)⟩

/-- Claim C3: a non-dry single-issue run that passes both guards performs
exactly the write sequence: the Jira create call (whose returned key is
used by everything after it), then ensure-label, then attach-label, and —
if and only if close-after-sync is enabled — the closing comment followed
by the state update to closed/not-planned.  No other order and no other
writes occur. -/
theorem c3_write_sequence :
    ∀ (cfg : Config) (issue : Issue) (resp : String),
      cfg.dryRun = false →
      getJiraKeyFromLabels issue.labels = none →
      issue.state ≠ "closed" →
      syncIssue cfg issue resp =
        (Outcome.synced resp,
          [WriteEff.jiraCreate (mkPayload cfg issue),
           WriteEff.ensureLabelCall (syncLabelName resp) "0075ca"
             ("Synced to Jira as " ++ resp),
           WriteEff.addLabels issue.number [syncLabelName resp]]
          ++ (if cfg.closeAfterSync then
                [WriteEff.createComment issue.number,
                 WriteEff.updateIssue issue.number "closed" "not_planned"]
              else [])) := by
  intro cfg issue resp hdry hg hst
  rw [syncIssue, hg]
  simp [hst, createJiraIssue, applyJiraLabel, closeIssue, hdry]

/-- Witness for C3 at a concrete live configuration and unlabelled open
issue. -/
theorem c3_write_sequence_witness :
    syncIssue cfgLive issuePlain "OLSF-3" =
      (Outcome.synced "OLSF-3",
        [WriteEff.jiraCreate (mkPayload cfgLive issuePlain),
         WriteEff.ensureLabelCall (syncLabelName "OLSF-3") "0075ca"
           ("Synced to Jira as " ++ "OLSF-3"),
         WriteEff.addLabels issuePlain.number [syncLabelName "OLSF-3"]]
        ++ (if cfgLive.closeAfterSync then
              [WriteEff.createComment issuePlain.number,
               WriteEff.updateIssue issuePlain.number "closed" "not_planned"]
            else [])) :=
  c3_write_sequence cfgLive issuePlain "OLSF-3" rfl (by decide) (by decide)

/-- Claim C4 (code bug evidence): the claimed dry-run property fails on
the null body GitHub returns for bodiless issues — `createJiraIssue`
evaluates `parseBody(issue.body)` before its `DRY_RUN` check and the
`body = ''` default only covers `undefined`, so `parseBody(null)` throws
a TypeError: the dry run crashes with no synthetic key and no decision.
With any string body the dry run does return the `<project>-DRY`
placeholder with zero writes, and no string ending in `-DRY` matches the
real Jira-key pattern (real keys end in a digit), so the placeholder is
distinguishable as claimed. -/
theorem c4_dry_run_null_body :
    parseBodyCall none = Except.error "TypeError"
    ∧ syncIssueRaw cfgDry rawNullBody "X" = Except.error "TypeError"
    ∧ syncIssueRaw cfgDry rawBodied "X"
        = Except.ok (Outcome.synced (cfgDry.projectKey ++ "-DRY"), [])
    ∧ (∀ p : String, isSyncKeyChars (p ++ "-DRY").data = false) :=
  ⟨rfl, rfl, rfl, dryKey_not_syncKey⟩

/-- Claim C5 (code bug evidence): on the title
`"[TODO][P1 CRITICAL] Fix race condition"` the summary derivation of
`createJiraIssue` strips only the first bracketed group — the `^` anchor
makes the global flag inert — so it produces
`"[P1 CRITICAL] Fix race condition"`, not the fully-stripped
`"Fix race condition"` the claim (and the code's own comment) describe;
a title with no bracket prefix passes through, and the 255 clamp holds. -/
theorem c5_summary_first_group_only :
    deriveSummary "[TODO][P1 CRITICAL] Fix race condition"
        = "[P1 CRITICAL] Fix race condition"
    ∧ deriveSummary "[TODO][P1 CRITICAL] Fix race condition"
        ≠ "Fix race condition"
    ∧ deriveSummary "Fix race condition" = "Fix race condition"
    ∧ (∀ title : String, (deriveSummary title).data.length ≤ 255) := by
  refine ⟨by decide, by decide, by decide, ?_⟩
  intro title
  simp only [deriveSummary]
  exact List.length_take_le 255 _

/-- Claim C6 (code bug evidence): a label whose name collides with an
`Object.prototype` property — here `constructor` — has no entry in the
issue-type table, yet the real lookup `TYPE_MAP[l.name]` finds the truthy
inherited member, so `deriveIssueType` returns that member (not a string,
and not the configured default), falsifying the claimed fallback.  Away
from such names the claim's content holds: an unrecognized label set
falls back to the configured default (quantification over which shows it
is not a hardcoded literal would hold), and the first label with a table
entry determines the result. -/
theorem c6_issue_type_proto_leak :
    deriveIssueTypeJs "Epic" [⟨"constructor"⟩] = JsValue.protoMember "constructor"
    ∧ deriveIssueTypeJs "Epic" [⟨"constructor"⟩] ≠ JsValue.str "Epic"
    ∧ deriveIssueTypeJs "Epic" [⟨"docs"⟩, ⟨"question"⟩] = JsValue.str "Epic"
    ∧ deriveIssueTypeJs "Epic" [⟨"docs"⟩, ⟨"enhancement"⟩, ⟨"bug"⟩]
        = JsValue.str "Story" :=
  ⟨rfl, by decide, rfl, rfl⟩

/-- Claim C7: with only `file` and `author` truthy in the extracted
metadata, the Details table of the composed description consists of the
header row, exactly the File row and the Author row (in the fixed field
order), and the mandatory final GitHub-issue link row — absent fields
produce no rows. -/
theorem c7_details_table :
    ∀ (issue : Issue) (meta : Meta) (f a : String),
      meta.file = some f → f.data.isEmpty = false →
      meta.author = some a → a.data.isEmpty = false →
      jsTruthy meta.line = false → jsTruthy meta.branch = false →
      jsTruthy meta.commit = false → jsTruthy meta.introduced = false →
      buildDescription issue meta =
        Adf.doc
          ([provenancePara,
            Adf.blockquote
              [Adf.paragraph [Adf.text (jsOr meta.todoText issue.title) []]],
            Adf.heading 3 [Adf.text "Details" []],
            Adf.table
              [adfTableRow ["Field", "Value"] true,
               adfTableRow ["File", f] false,
               adfTableRow ["Author", a] false,
               adfTableRow ["GitHub Issue", issue.html_url] false]]
           ++ codeContextPart meta) := by
  intro issue meta f a hf hfne ha hane hl hb hc hi
  have rof : rowOpt "File" meta.file = [("File", f)] := by
    rw [hf, rowOpt, hfne]
    simp
  have roa : rowOpt "Author" meta.author = [("Author", a)] := by
    rw [ha, rowOpt, hane]
    simp
  rw [buildDescription, metaRows, metaFieldRows, rof, roa,
      rowOpt_eq_nil _ _ hl, rowOpt_eq_nil _ _ hb, rowOpt_eq_nil _ _ hc,
      rowOpt_eq_nil _ _ hi]
  simp

/-- A concrete metadata record with only `file` and `author` populated. -/
def metaFA : Meta :=
  ⟨none, none, some "src/app.c", none, none, none, none, some "alice"⟩

/-- Witness for C7 at a concrete issue and metadata record. -/
theorem c7_details_table_witness :
    buildDescription issuePlain metaFA =
      Adf.doc
        ([provenancePara,
          Adf.blockquote
            [Adf.paragraph [Adf.text (jsOr metaFA.todoText issuePlain.title) []]],
          Adf.heading 3 [Adf.text "Details" []],
          Adf.table
            [adfTableRow ["Field", "Value"] true,
             adfTableRow ["File", "src/app.c"] false,
             adfTableRow ["Author", "alice"] false,
             adfTableRow ["GitHub Issue", issuePlain.html_url] false]]
         ++ codeContextPart metaFA) :=
  c7_details_table issuePlain metaFA "src/app.c" "alice" rfl (by decide) rfl
    (by decide) rfl rfl rfl rfl

/-- Claim C8: the Description Composer is total and deterministic — it is
a pure function — and for every issue and every extracted-metadata value
its output is a document that starts with the provenance paragraph and
whose Details table always ends with the GitHub-issue link row. -/
theorem c8_composer_total :
    ∀ (issue : Issue) (meta : Meta),
      ∃ fieldRows tail,
        buildDescription issue meta =
          Adf.doc
            ([provenancePara,
              Adf.blockquote
                [Adf.paragraph [Adf.text (jsOr meta.todoText issue.title) []]],
              Adf.heading 3 [Adf.text "Details" []],
              Adf.table
                (adfTableRow ["Field", "Value"] true ::
                  (fieldRows ++ [adfTableRow ["GitHub Issue", issue.html_url] false]))]
             ++ tail) := by
  intro issue meta
  refine ⟨(metaFieldRows meta).map (fun r => adfTableRow [r.1, r.2] false),
    codeContextPart meta, ?_⟩
  rw [buildDescription, metaRows]
  simp [List.map_append]

/-- Claim C9: the bulk inner loop is a per-entry fold: every entry
contributes its own counter delta independently, so a caught per-issue
failure bumps `failed` and the remaining batch is still processed, and
pull-request entries are passed over, contributing to no counter. -/
theorem c9_bulk_isolation :
    (∀ (run : Issue → Except String Outcome) (issues : List Issue) (acc : Summary),
       processIssues run issues acc = addSummary acc (sumDeltas run issues))
    ∧
    (∀ (run : Issue → Except String Outcome) (i : Issue) (rest : List Issue)
       (acc : Summary) (e : String),
       i.is_pr = false → run i = Except.error e →
       processIssues run (i :: rest) acc
         = processIssues run rest ⟨acc.synced, acc.skipped, acc.failed + 1⟩)
    ∧
    (∀ (run : Issue → Except String Outcome) (i : Issue) (rest : List Issue)
       (acc : Summary),
       i.is_pr = true →
       processIssues run (i :: rest) acc = processIssues run rest acc
         ∧ issueDelta run i = ⟨0, 0, 0⟩) := by
  refine ⟨fun run issues acc => processIssues_eq_sum run issues acc, ?_, ?_⟩
  · intro run i rest acc e hp hr
    simp only [processIssues, hp, Bool.false_eq_true, if_false, hr]
  · intro run i rest acc hp
    exact ⟨by simp only [processIssues, hp, if_true], by simp [issueDelta, hp]⟩

/-- A bulk-run environment for the C9 witness: issue #1 fails, the rest
sync. -/
def runW : Issue → Except String Outcome := fun i =>
  if i.number = 1 then Except.error "boom" else Except.ok (Outcome.synced "OLSF-1")

/-- Concrete listing entries for the C9 witness. -/
def issueW1 : Issue := ⟨1, "a", "", "open", [], "u1", false⟩

/-- Concrete listing entry that syncs. -/
def issueW2 : Issue := ⟨2, "b", "", "open", [], "u2", false⟩

/-- Concrete pull-request entry. -/
def issuePR : Issue := ⟨3, "c", "", "open", [], "u3", true⟩

/-- Witness for C9: a concrete batch where the first entry fails and the
rest is still counted, and a pull request contributes nothing. -/
theorem c9_bulk_isolation_witness :
    processIssues runW [issueW1, issuePR, issueW2] ⟨0, 0, 0⟩
      = addSummary ⟨0, 0, 0⟩ (sumDeltas runW [issueW1, issuePR, issueW2])
    ∧ processIssues runW (issueW1 :: [issueW2]) ⟨0, 0, 0⟩
      = processIssues runW [issueW2] ⟨0, 0, 1⟩
    ∧ processIssues runW (issuePR :: [issueW2]) ⟨0, 0, 0⟩
      = processIssues runW [issueW2] ⟨0, 0, 0⟩ :=
  ⟨c9_bulk_isolation.1 runW [issueW1, issuePR, issueW2] ⟨0, 0, 0⟩,
   c9_bulk_isolation.2.1 runW issueW1 [issueW2] ⟨0, 0, 0⟩ "boom" rfl rfl,
   (c9_bulk_isolation.2.2 runW issuePR [issueW2] ⟨0, 0, 0⟩ rfl).1⟩

/-- Claim C10: the label codec round-trips — for a key of the real
Jira-key shape and a label set with no sync label, attaching the label
name `applyJiraLabel` writes and then extracting yields exactly that key
back, which is what makes the idempotency guard recognize a previously
synced issue. -/
theorem c10_label_roundtrip :
    ∀ (k : String) (L : List Label),
      SpecSyncKeyShape k.data →
      (∀ l ∈ L, isSyncLabel l.name = false) →
      getJiraKeyFromLabels (L ++ [⟨syncLabelName k⟩]) = some k := by
  intro k L hshape hL
  have hk : isSyncKeyChars k.data = true := (isSyncKeyChars_iff k.data).mpr hshape
  have := getJiraKey_first L [] ⟨syncLabelName k⟩ hL
    (by rw [isSyncLabel_syncLabelName]; exact hk)
  rw [this, drop5_syncLabelName]

/-- Witness for C10 at the key `AB-7` over a one-label set. -/
theorem c10_label_roundtrip_witness :
    getJiraKeyFromLabels ([⟨"enhancement"⟩] ++ [⟨syncLabelName "AB-7"⟩])
      = some "AB-7" :=
  c10_label_roundtrip "AB-7" [⟨"enhancement"⟩]
    ⟨'A', ['B'], ['7'], by decide, by decide, by decide, by decide, by decide,
     by decide⟩
    (by decide)

end GhJiraSync

